import Mathlib

/-!
Verification of the coco orchestration controller (`coco/app.py`, `coco/conf.py`)
against its natural-language specification.

The Python source is shallowly embedded: configuration stores and registries
become association lists, stateful methods become explicit state-passing
functions, a possible Python exception becomes an `Option String` error slot,
and `datetime.timedelta` arithmetic becomes explicit `Nat` arithmetic with the
`% 86400` that `timedelta.seconds` performs.
-/

set_option autoImplicit false

namespace Coco

/-- A configuration value.  The embedding covers the value shapes the claims
exercise: strings, integers, booleans and the Python `None`.  (The JSON
coercion branch of `convert_type` for `list`/`dict` defaults concerns value
shapes outside this universe and is therefore not representable here.) -/
inductive CVal where
  | vStr (s : String)
  | vInt (n : Int)
  | vBool (b : Bool)
  | vNone
  deriving Repr, DecidableEq

/-- Association-list lookup by key; first binding wins, as in a Python dict
whose keys are unique. -/
def lookupAssoc (l : List (String × CVal)) (k : String) : Option CVal :=
  match l with
  | [] => none
  | (k2, v) :: rest => if k2 = k then some v else lookupAssoc rest k

/-- Set `k` to `v` in an association list, overwriting an existing binding,
as Python dict item assignment does. -/
def setKey (l : List (String × CVal)) (k : String) (v : CVal) :
    List (String × CVal) :=
  match l with
  | [] => [(k, v)]
  | (k2, w) :: rest =>
      if k2 = k then (k, v) :: rest else (k2, w) :: setKey rest k v

/-- The `Config` object of `coco/conf.py`: the underlying dict (`store`), the
process environment visible to `os.environ.get`, and the `defaults` dict the
constructor received. -/
structure Config where
  store : List (String × CVal)
  env : List (String × String)
  defaults : List (String × CVal)
  deriving Repr, DecidableEq

/-- Environment lookup (`os.environ.get(item, None)`). -/
def Config.envGet (c : Config) (k : String) : Option String :=
  match c.env.lookup k with
  | some s => some s
  | none => none

/-- Decimal digits to a number, failing on a non-digit or on no digits. -/
def digitsToNat : List Char → Option Nat
  | [] => none
  | cs =>
    cs.foldl
      (fun acc c =>
        match acc with
        | none => none
        | some n =>
            if 48 ≤ c.toNat ∧ c.toNat ≤ 57 then some (n * 10 + (c.toNat - 48))
            else none)
      (some 0)

/-- Python `int(v)` on a string, for the forms the configuration claims
exercise: an optional minus sign followed by decimal digits; anything else
raises, modelled as `none`. -/
def parsePyInt (s : String) : Option Int :=
  match s.toList with
  | '-' :: rest => (digitsToNat rest).map (fun n => -(n : Int))
  | cs => (digitsToNat cs).map (fun n => (n : Int))

/-- `Config.convert_type` from `coco/conf.py` lines 290-312: coerce an
environment-variable string toward the type of the default for the key.
A missing or `None` default returns the string unchanged; a `bool` default
maps the textual forms `true`/`True`/`1` to `True` and everything else to
`False`; an `int` default applies `int(v)`, keeping the string when parsing
fails; a `str` default returns the string unchanged (`str(v) = v`). -/
def Config.convert_type (c : Config) (k : String) (v : String) : CVal :=
  match lookupAssoc c.defaults k with
  | none => CVal.vStr v
  | some CVal.vNone => CVal.vStr v
  | some (CVal.vBool _) =>
      if v = "true" ∨ v = "True" ∨ v = "1" then CVal.vBool true
      else CVal.vBool false
  | some (CVal.vInt _) =>
      match parsePyInt v with
      | some n => CVal.vInt n
      | none => CVal.vStr v
  | some (CVal.vStr _) => CVal.vStr v

/-- `Config.__getitem__` from `coco/conf.py` lines 314-326: the value stored
in the dict when present and not `None`; otherwise the environment variable,
type-coerced; otherwise `self.defaults.get(item)`.  The result `none` is
Python `None`. -/
def Config.getItem (c : Config) (k : String) : Option CVal :=
  match lookupAssoc c.store k with
  | some v =>
      if v = CVal.vNone then
        match c.envGet k with
        | some e => some (c.convert_type k e)
        | none => lookupAssoc c.defaults k
      else some v
  | none =>
      match c.envGet k with
      | some e => some (c.convert_type k e)
      | none => lookupAssoc c.defaults k

/-- `config.update(configs)` in `Coco.load_extra_conf_from_server`
(`coco/app.py` line 65): a plain `dict.update`, writing every fetched binding
into the underlying dict of the `Config` object. -/
def Config.updateStore (c : Config) (doc : List (String × CVal)) : Config :=
  { c with store := doc.foldl (fun st kv => setKey st kv.1 kv.2) c.store }

/-- Python string slicing `s[32:50]` followed by `+ '...'`. -/
def redactHostKey (s : String) : String :=
  String.mk ((s.toList.drop 32).take 18) ++ "..."

/-- The redacted copy built in `Coco.load_extra_conf_from_server`
(`coco/app.py` lines 67-68): `tmp = copy.deepcopy(configs)` followed by
`tmp['HOST_KEY'] = tmp.get('HOST_KEY', '')[32:50] + '...'`.  The deep copy
makes `tmp` share nothing with the fetched document, so this is a pure
function of the document. -/
def redactDoc (doc : List (String × CVal)) : List (String × CVal) :=
  let hk := match lookupAssoc doc "HOST_KEY" with
    | some (CVal.vStr s) => s
    | _ => ""
  setKey doc "HOST_KEY" (CVal.vStr (redactHostKey hk))

/-- `Coco.load_extra_conf_from_server` (`coco/app.py` lines 62-73), given the
document the server returned: updates the process-wide configuration with the
fetched document, and on the first load logs the redacted copy.  Returns the
new configuration, the document that was logged (if any), and the new value of
the `first_load_extra_conf` flag. -/
def load_extra_conf_from_server (c : Config)
    (fetched : List (String × CVal)) (firstLoad : Bool) :
    Config × Option (List (String × CVal)) × Bool :=
  let c2 := c.updateStore fetched
  let tmp := redactDoc fetched
  (c2, if firstLoad then some tmp else none, false)

/-- A session as the controller sees it (`coco/session.py` is external to the
provided sources; these are exactly the attributes `coco/app.py` reads:
`id`, `date_last_active`, `closed`, `closed_unexpected`).  Timestamps are
seconds since an arbitrary epoch. -/
structure Session where
  id : String
  date_last_active : Nat
  closed : Bool
  closed_unexpected : Bool
  deriving Repr, DecidableEq

/-- `check_session_idle_too_long` from `coco/app.py` lines 167-176, with the
configured `SECURITY_MAX_IDLE_TIME` (minutes) already resolved.  The source
compares `delta.seconds` — the seconds component of a Python `timedelta`,
which for a non-negative delta equals the total elapsed seconds modulo
86400 — against the threshold in seconds, and terminates (returns `true`)
exactly when that comparison is a strict `>`. -/
def check_session_idle_too_long (now maxIdleMinutes : Nat) (s : Session) :
    Bool :=
  let deltaSeconds := (now - s.date_last_active) % 86400
  let maxIdleSeconds := maxIdleMinutes * 60
  decide (deltaSeconds > maxIdleSeconds)

/-- Modelled from the spec: `Session.remove_session` lives in
`coco/session.py`, which is not among the provided sources.  Spec section 4.1
gives its contract: unregister removes the entry with that identifier from
the registry and is a no-op on an absent identifier. -/
def removeSession (reg : List Session) (i : String) : List Session :=
  reg.filter (fun s => s.id ≠ i)

/-- One session processed by the loop body of `Coco.monitor_sessions`
(`coco/app.py` lines 182-191): an abnormally closed session is removed and
skipped; a normally closed session is removed; otherwise the idle check runs
and may terminate.  The accumulator carries the registry and the identifiers
of the sessions on which `terminate` was invoked, in order. -/
def monitorStep (now maxIdleMinutes : Nat)
    (acc : List Session × List String) (s : Session) :
    List Session × List String :=
  if s.closed_unexpected then (removeSession acc.1 s.id, acc.2)
  else if s.closed then (removeSession acc.1 s.id, acc.2)
  else if check_session_idle_too_long now maxIdleMinutes s then
    (acc.1, acc.2 ++ [s.id])
  else (acc.1, acc.2)

/-- One full iteration of the monitor loop body (`coco/app.py` lines
181-191): iterate over a point-in-time snapshot of the registry (the
`sessions_copy` list), removing closed sessions and idle-checking the rest.
Returns the registry after the iteration and the terminate calls issued. -/
def monitorIteration (now maxIdleMinutes : Nat) (reg : List Session) :
    List Session × List String :=
  reg.foldl (monitorStep now maxIdleMinutes) (reg, [])

/-- An opaque task descriptor returned by the central server. -/
structure Task where
  kind : String
  payload : String
  deriving Repr, DecidableEq

/-- The value `app_service.terminal_heartbeat` hands back to
`Coco.heartbeat`: either a (possibly empty) task list, or the explicit
hard-failure indicator `False`. -/
inductive TransportResult where
  | taskList (ts : List Task)
  | hardFailure
  deriving Repr, DecidableEq

/-- Python truthiness of the heartbeat result (`if tasks:`): a non-empty
list is truthy; an empty list and `False` are falsy. -/
def truthy : TransportResult → Bool
  | TransportResult.taskList ts => !ts.isEmpty
  | TransportResult.hardFailure => false

/-- The task list carried by a transport result. -/
def tasksOf : TransportResult → List Task
  | TransportResult.taskList ts => ts
  | TransportResult.hardFailure => []

/-- How an individual close attempt on a connection behaves.  Modelled from
the spec: `Connection` lives in `coco/models.py`, outside the provided
sources; spec section 3 gives it an identifier and a close capability, and
section 7 allows a close to fail. -/
inductive CloseOutcome where
  | ok
  | raises (msg : String)
  deriving Repr, DecidableEq

/-- A registered connection: its identifier and what its close call does. -/
structure Connection where
  id : String
  onClose : CloseOutcome
  deriving Repr, DecidableEq

/-- The controller state touched by `Coco.heartbeat`, `Coco.shutdown` and
the loops: the session registry, the connection registry, the log of tasks
handed to the dispatcher in order, the main-thread lock (`self.lock`,
`True` when currently acquired), the stop event (`self.stop_evt`), whether
the gateways were stopped, and the log of close calls attempted on
connections, in order. -/
structure CocoState where
  sessions : List Session
  connections : List Connection
  dispatchedTasks : List Task
  lockHeld : Bool
  stopEvtSet : Bool
  sshdStopped : Bool
  httpdStopped : Bool
  closeAttempts : List String
  deriving Repr, DecidableEq

/-- `Coco.heartbeat` (`coco/app.py` lines 92-104) given the transport result:
`if tasks:` dispatches every task in order through `handle_task`; then
`if tasks is False: return False else: return True`.  The registry is only
read (its keys are sent), never written. -/
def heartbeat (st : CocoState) (resp : TransportResult) : CocoState × Bool :=
  let st2 :=
    if truthy resp then
      { st with dispatchedTasks := st.dispatchedTasks ++ tasksOf resp }
    else st
  (st2, decide (resp ≠ TransportResult.hardFailure))

/-- A Python exception, split into the one class the heartbeat loop catches
and everything else. -/
inductive PyExc where
  | indexError (msg : String)
  | otherExc (kind msg : String)
  deriving Repr, DecidableEq

/-- What becomes of a loop thread after one iteration. -/
inductive LoopStep where
  | continueLoop
  | threadCrashed (e : PyExc)
  deriving Repr, DecidableEq

/-- The exception handling of one iteration of the `keep_heartbeat` loop
body (`coco/app.py` lines 116-121): `try: self.heartbeat() except
IndexError as e: logger.error(...)`.  Given the exception the iteration
raised (if any), the thread proceeds to its sleep exactly when nothing was
raised or an `IndexError` was raised; any other exception escapes `func` and
kills the hosting thread. -/
def keep_heartbeat_iteration (raised : Option PyExc) : LoopStep :=
  match raised with
  | none => LoopStep.continueLoop
  | some (PyExc.indexError _) => LoopStep.continueLoop
  | some e => LoopStep.threadCrashed e

/-- The `for connection in Connection.connections.values(): connection.close()`
loop of `Coco.shutdown` (`coco/app.py` lines 230-231).  No exception handler
wraps it, so the first close that raises stops the loop.  Returns the
identifiers whose close was attempted, in order, and the propagated
exception message if one was raised. -/
def closeConnections : List Connection → List String × Option String
  | [] => ([], none)
  | c :: rest =>
    match c.onClose with
    | CloseOutcome.ok =>
        let r := closeConnections rest
        (c.id :: r.1, r.2)
    | CloseOutcome.raises m => ([c.id], some m)

/-- `Coco.shutdown` (`coco/app.py` lines 228-236): close every registered
connection, run one final heartbeat, release the main-thread lock, set the
stop event, stop both gateways.  The method body has no exception handler:
an exception from a close call, or the `RuntimeError` that
`threading.Lock.release` raises on an unlocked lock, propagates and aborts
the remaining steps.  The second component is the propagated exception
message, `none` on normal return. -/
def shutdown (st : CocoState) (resp : TransportResult) :
    CocoState × Option String :=
  let closed := closeConnections st.connections
  let st1 := { st with closeAttempts := st.closeAttempts ++ closed.1 }
  match closed.2 with
  | some m => (st1, some m)
  | none =>
    let st2 := (heartbeat st1 resp).1
    if st2.lockHeld then
      ({ st2 with
          lockHeld := false
          stopEvtSet := true
          sshdStopped := true
          httpdStopped := true }, none)
    else (st2, some "release unlocked lock")

/-- The interval captured once by `Coco.monitor_sessions` before its loop
starts (`interval = config["HEARTBEAT_INTERVAL"]`, `coco/app.py` line 165),
from the configuration as it stands at that moment. -/
def monitor_sessions_interval (startupConfig : Config) : Option CVal :=
  startupConfig.getItem "HEARTBEAT_INTERVAL"

/-- The duration the monitor loop sleeps at the end of its n-th iteration
(`time.sleep(interval)`, `coco/app.py` line 195): always the captured
startup value, whatever the configuration says at that time. -/
def monitorSleepAt (startupConfig : Config) (_cfgAt : Nat → Config)
    (_n : Nat) : Option CVal :=
  monitor_sessions_interval startupConfig

/-- The duration the heartbeat loop sleeps at the end of its n-th iteration
(`time.sleep(config["HEARTBEAT_INTERVAL"])`, `coco/app.py` line 121): the
configuration value as it stands at that iteration. -/
def heartbeatSleepAt (cfgAt : Nat → Config) (n : Nat) : Option CVal :=
  (cfgAt n).getItem "HEARTBEAT_INTERVAL"

/-- Python `filename.split('.')` on a list of characters: split on every
dot, keeping empty pieces, with `[''] ` for the empty string. -/
def splitOnDot : List Char → List (List Char)
  | [] => [[]]
  | c :: rest =>
    let r := splitOnDot rest
    if c = '.' then [] :: r
    else
      match r with
      | [] => [[c]]
      | piece :: others => (c :: piece) :: others

/-- `check_replay_is_need_upload` from `coco/app.py` lines 136-144, on the
basename of the file: `suffix = filename.split('.')[-1]` must be `gz` and
`session_id = filename.split('.')[0]` must have length 36. -/
def check_replay_is_need_upload (filename : List Char) : Bool :=
  let parts := splitOnDot filename
  let suffix := parts.getLastD []
  if suffix ≠ ['g', 'z'] then false
  else
    let sessionId := parts.headD []
    decide (sessionId.length = 36)

/-- The portion of the filename before the first dot, in the words of the
spec, written without the split: the longest dot-free front of the name. -/
def beforeFirstDot (filename : List Char) : List Char :=
  filename.takeWhile (fun c => c ≠ '.')

/-- The last dot-separated extension of the filename, in the words of the
spec, written without the split: the longest dot-free back of the name. -/
def lastDotExtension (filename : List Char) : List Char :=
  (filename.reverse.takeWhile (fun c => c ≠ '.')).reverse

theorem lookupAssoc_setKey_self (l : List (String × CVal)) (k : String)
    (v : CVal) : lookupAssoc (setKey l k v) k = some v := by
  induction l with
  | nil => simp [setKey, lookupAssoc]
  | cons kv rest ih =>
    obtain ⟨k2, w⟩ := kv
    by_cases h : k2 = k
    · subst h; simp [setKey, lookupAssoc]
    · simp [setKey, lookupAssoc, h, ih]

theorem lookupAssoc_setKey_ne (l : List (String × CVal)) (k k2 : String)
    (v : CVal) (h : k2 ≠ k) :
    lookupAssoc (setKey l k v) k2 = lookupAssoc l k2 := by
  induction l with
  | nil => simp [setKey, lookupAssoc, Ne.symm h]
  | cons kv rest ih =>
    obtain ⟨k3, w⟩ := kv
    by_cases h3 : k3 = k
    · subst h3
      simp [setKey, lookupAssoc, Ne.symm h]
    · simp only [setKey, if_neg h3]
      by_cases h2 : k3 = k2
      · simp [lookupAssoc, h2]
      · simp [lookupAssoc, h2, ih]

theorem lookupAssoc_foldl_setKey_notin (doc : List (String × CVal))
    (st : List (String × CVal)) (k : String)
    (h : ∀ kv ∈ doc, kv.1 ≠ k) :
    lookupAssoc (doc.foldl (fun s kv => setKey s kv.1 kv.2) st) k =
      lookupAssoc st k := by
  induction doc generalizing st with
  | nil => rfl
  | cons kv doc ih =>
    rw [List.foldl_cons, ih _ (fun x hx => h x (List.mem_cons_of_mem _ hx))]
    exact lookupAssoc_setKey_ne st kv.1 k kv.2
      (fun hk => h kv (List.mem_cons_self _ _) hk.symm)

theorem lookupAssoc_foldl_setKey (doc : List (String × CVal))
    (st : List (String × CVal)) (k : String) (v : CVal)
    (hnd : (doc.map Prod.fst).Nodup) (hv : lookupAssoc doc k = some v) :
    lookupAssoc (doc.foldl (fun s kv => setKey s kv.1 kv.2) st) k = some v := by
  induction doc generalizing st with
  | nil => simp [lookupAssoc] at hv
  | cons kv doc ih =>
    obtain ⟨k1, v1⟩ := kv
    rw [List.map_cons, List.nodup_cons] at hnd
    by_cases h : k1 = k
    · subst h
      have hv1 : v1 = v := by simpa [lookupAssoc] using hv
      subst hv1
      rw [List.foldl_cons]
      rw [lookupAssoc_foldl_setKey_notin doc _ k1 ?hmem]
      · exact lookupAssoc_setKey_self st k1 v1
      · intro x hx hxk
        have hmm : x.1 ∈ doc.map Prod.fst := List.mem_map_of_mem Prod.fst hx
        rw [hxk] at hmm
        exact hnd.1 hmm
    · have hv2 : lookupAssoc doc k = some v := by
        simpa [lookupAssoc, h] using hv
      rw [List.foldl_cons]
      exact ih (setKey st k1 v1) hnd.2 hv2

/-- C1 (amended).  Configuration resolution precedence in
`Config.__getitem__`: (1) a present, non-None value in the underlying dict —
a layer that holds both the values set by local startup configuration and
every value written by a remote fetch, since `load_extra_conf_from_server`
merges the remote document into that same dict with `dict.update`; (2) the
environment-variable override, type-coerced; (3) the built-in default.  In
particular, a remote document fetched after startup shadows the
environment-variable override for the same key. -/
theorem config_precedence_amended (c : Config) (k : String) :
    (∀ v, lookupAssoc c.store k = some v → v ≠ CVal.vNone →
      c.getItem k = some v) ∧
    ((lookupAssoc c.store k = none ∨
        lookupAssoc c.store k = some CVal.vNone) →
      (∀ e, c.envGet k = some e →
        c.getItem k = some (c.convert_type k e)) ∧
      (c.envGet k = none → c.getItem k = lookupAssoc c.defaults k)) ∧
    (∀ (doc : List (String × CVal)) (v : CVal),
      (doc.map Prod.fst).Nodup → lookupAssoc doc k = some v →
      v ≠ CVal.vNone → (c.updateStore doc).getItem k = some v) := by
  refine ⟨?_, ?_, ?_⟩
  · intro v hv hne
    unfold Config.getItem
    rw [hv]
    simp [hne]
  · intro hst
    constructor
    · intro e he
      unfold Config.getItem
      rcases hst with h | h <;> rw [h] <;> simp [he]
    · intro he
      unfold Config.getItem
      rcases hst with h | h <;> rw [h] <;> simp [he]
  · intro doc v hnd hv hne
    have hl : lookupAssoc (c.updateStore doc).store k = some v :=
      lookupAssoc_foldl_setKey doc c.store k v hnd hv
    unfold Config.getItem
    rw [hl]
    simp [hne]

/-- C1 witness: with default TIMEOUT=60 and environment TIMEOUT=30 the
resolved value is 30, and after a remote document sets TIMEOUT=10 the
resolved value is 10. -/
theorem config_precedence_amended_witness :
    Config.getItem ⟨[], [("TIMEOUT", "30")], [("TIMEOUT", CVal.vInt 60)]⟩
      "TIMEOUT" = some (CVal.vInt 30) ∧
    Config.getItem (Config.updateStore
      ⟨[], [("TIMEOUT", "30")], [("TIMEOUT", CVal.vInt 60)]⟩
      [("TIMEOUT", CVal.vInt 10)]) "TIMEOUT" = some (CVal.vInt 10) := by
  have h := config_precedence_amended
    ⟨[], [("TIMEOUT", "30")], [("TIMEOUT", CVal.vInt 60)]⟩ "TIMEOUT"
  constructor
  · have h2 := (h.2.1 (Or.inl rfl)).1 "30" rfl
    rw [h2]
    decide
  · exact h.2.2 [("TIMEOUT", CVal.vInt 10)] (CVal.vInt 10)
      (by decide) (by decide) (by decide)

/-- C1 counterexample: the claim says an environment override beats a later
remote document for the same key.  With default TIMEOUT=60, environment
TIMEOUT=30 and a remote document setting TIMEOUT=10, the controller resolves
10, not the environment value 30. -/
theorem config_env_not_over_remote_cex :
    (load_extra_conf_from_server
        ⟨[], [("TIMEOUT", "30")], [("TIMEOUT", CVal.vInt 60)]⟩
        [("TIMEOUT", CVal.vInt 10)] false).1.getItem "TIMEOUT" =
      some (CVal.vInt 10) ∧
    (load_extra_conf_from_server
        ⟨[], [("TIMEOUT", "30")], [("TIMEOUT", CVal.vInt 60)]⟩
        [("TIMEOUT", CVal.vInt 10)] false).1.getItem "TIMEOUT" ≠
      some (CVal.vInt 30) := by decide

/-- C10.  Logging the first remote configuration load does not mutate the
stored configuration: for every key of the fetched document, the value the
configuration stores after `load_extra_conf_from_server` is exactly the
fetched value (so HOST_KEY keeps its fetched value, not the redacted
string), while the redaction appears only in the logged copy. -/
theorem load_conf_redaction_frame (c : Config)
    (fetched : List (String × CVal)) (first : Bool)
    (hnd : (fetched.map Prod.fst).Nodup) :
    (∀ k v, lookupAssoc fetched k = some v →
      lookupAssoc (load_extra_conf_from_server c fetched first).1.store k =
        some v) ∧
    (load_extra_conf_from_server c fetched first).2.1 =
      (if first then some (redactDoc fetched) else none) := by
  constructor
  · intro k v hv
    exact lookupAssoc_foldl_setKey fetched c.store k v hnd hv
  · rfl

/-- C10 witness: a fetched HOST_KEY string is stored verbatim while the
logged copy holds the redacted form. -/
theorem load_conf_redaction_frame_witness :
    lookupAssoc (load_extra_conf_from_server ⟨[], [], []⟩
        [("HOST_KEY",
          CVal.vStr "0123456789abcdef0123456789abcdef0123456789abcdef"),
         ("TIMEOUT", CVal.vInt 5)] true).1.store "HOST_KEY" =
      some (CVal.vStr
        "0123456789abcdef0123456789abcdef0123456789abcdef") := by
  exact (load_conf_redaction_frame ⟨[], [], []⟩
    [("HOST_KEY",
      CVal.vStr "0123456789abcdef0123456789abcdef0123456789abcdef"),
     ("TIMEOUT", CVal.vInt 5)] true (by decide)).1 "HOST_KEY" _ (by decide)

/-- C9 (amended).  Both loops sleep the configured heartbeat interval, but
the monitor loop reads it once before its loop starts and reuses that
captured value in every iteration, while the heartbeat loop re-reads the
current configured value each iteration; the two sleeps coincide exactly
when the current configured value equals the value captured at monitor
startup. -/
theorem interval_sharing_amended (cfgAt : Nat → Config) (n : Nat) :
    heartbeatSleepAt cfgAt n = (cfgAt n).getItem "HEARTBEAT_INTERVAL" ∧
    monitorSleepAt (cfgAt 0) cfgAt n =
      (cfgAt 0).getItem "HEARTBEAT_INTERVAL" ∧
    (monitorSleepAt (cfgAt 0) cfgAt n = heartbeatSleepAt cfgAt n ↔
      (cfgAt n).getItem "HEARTBEAT_INTERVAL" =
        (cfgAt 0).getItem "HEARTBEAT_INTERVAL") := by
  refine ⟨rfl, rfl, ?_⟩
  simp [monitorSleepAt, heartbeatSleepAt, monitor_sessions_interval,
    eq_comm]

/-- C9 counterexample: with the heartbeat interval configured as 20 at
monitor startup and refreshed to 5 afterwards, iteration 1 of the heartbeat
loop sleeps 5 while the monitor loop still sleeps 20. -/
theorem interval_after_refresh_cex :
    monitorSleepAt ⟨[("HEARTBEAT_INTERVAL", CVal.vInt 20)], [], []⟩
      (fun n => if n = 0 then ⟨[("HEARTBEAT_INTERVAL", CVal.vInt 20)], [], []⟩
        else ⟨[("HEARTBEAT_INTERVAL", CVal.vInt 5)], [], []⟩) 1 =
      some (CVal.vInt 20) ∧
    heartbeatSleepAt
      (fun n => if n = 0 then ⟨[("HEARTBEAT_INTERVAL", CVal.vInt 20)], [], []⟩
        else ⟨[("HEARTBEAT_INTERVAL", CVal.vInt 5)], [], []⟩) 1 =
      some (CVal.vInt 5) ∧
    monitorSleepAt ⟨[("HEARTBEAT_INTERVAL", CVal.vInt 20)], [], []⟩
      (fun n => if n = 0 then ⟨[("HEARTBEAT_INTERVAL", CVal.vInt 20)], [], []⟩
        else ⟨[("HEARTBEAT_INTERVAL", CVal.vInt 5)], [], []⟩) 1 ≠
    heartbeatSleepAt
      (fun n => if n = 0 then ⟨[("HEARTBEAT_INTERVAL", CVal.vInt 20)], [], []⟩
        else ⟨[("HEARTBEAT_INTERVAL", CVal.vInt 5)], [], []⟩) 1 := by decide

/-- C2 (code bug).  The idle check compares the seconds component of the
timedelta — the elapsed time modulo one day — rather than the total elapsed
time, so a session idle 25 hours (90000 seconds) with a 60-minute threshold
is NOT terminated, although its idle time exceeds the threshold; within the
first day the check behaves as claimed (61 idle minutes terminate, 59 do
not). -/
theorem check_session_idle_day_wrap :
    check_session_idle_too_long 90000 60 ⟨"s", 0, false, false⟩ = false ∧
    90000 - 0 > 60 * 60 ∧
    check_session_idle_too_long 3660 60 ⟨"s", 0, false, false⟩ = true ∧
    check_session_idle_too_long 3540 60 ⟨"s", 0, false, false⟩ = false := by
  decide

/-- C6.  A heartbeat iteration that receives the explicit hard-failure
indicator dispatches no task, leaves the whole controller state (session
registry included) unchanged, returns False, and raises nothing, so the
hosting loop proceeds to its next interval. -/
theorem heartbeat_hard_failure_noop :
    (∀ st : CocoState,
      heartbeat st TransportResult.hardFailure = (st, false)) ∧
    keep_heartbeat_iteration none = LoopStep.continueLoop := by
  exact ⟨fun st => rfl, rfl⟩

/-- C4 counterexample: an exception other than IndexError raised inside a
heartbeat-loop iteration is not caught and terminates the hosting thread. -/
theorem heartbeat_loop_other_exception_cex :
    keep_heartbeat_iteration (some (PyExc.otherExc "ConnectionError" "boom"))
      = LoopStep.threadCrashed (PyExc.otherExc "ConnectionError" "boom") ∧
    keep_heartbeat_iteration (some (PyExc.otherExc "ConnectionError" "boom"))
      ≠ LoopStep.continueLoop := by decide

/-- C4 (amended).  The heartbeat loop body catches and logs only
IndexError: an iteration proceeds to the next sleep exactly when it raised
nothing or raised an IndexError; any other exception escapes and terminates
the hosting thread. -/
theorem heartbeat_loop_catches_only_indexerror (raised : Option PyExc) :
    keep_heartbeat_iteration raised = LoopStep.continueLoop ↔
      (raised = none ∨ ∃ m, raised = some (PyExc.indexError m)) := by
  cases raised with
  | none => simp [keep_heartbeat_iteration]
  | some e =>
    cases e with
    | indexError m => simp [keep_heartbeat_iteration]
    | otherExc k m => simp [keep_heartbeat_iteration]

theorem splitOnDot_cons (c : Char) (rest : List Char) :
    splitOnDot (c :: rest) =
      if c = '.' then [] :: splitOnDot rest
      else
        match splitOnDot rest with
        | [] => [[c]]
        | piece :: others => (c :: piece) :: others := rfl

theorem splitOnDot_ne_nil (l : List Char) : splitOnDot l ≠ [] := by
  cases l with
  | nil => simp [splitOnDot]
  | cons c rest =>
    rw [splitOnDot_cons]
    split
    · simp
    · split <;> simp

theorem takeWhile_sep {p : Char → Bool} {y : Char} (hy : p y = false) :
    ∀ (xs ys : List Char), (xs ++ y :: ys).takeWhile p = xs.takeWhile p
  | [], ys => by simp [List.takeWhile_cons, hy]
  | x :: xs, ys => by
    simp only [List.cons_append, List.takeWhile_cons]
    cases hx : p x <;> simp [takeWhile_sep hy xs ys]

theorem takeWhile_all {p : Char → Bool} :
    ∀ (xs ys : List Char), (∀ a ∈ xs, p a = true) →
      (xs ++ ys).takeWhile p = xs ++ ys.takeWhile p
  | [], ys, _ => by simp
  | x :: xs, ys, h => by
    have hx : p x = true := h x (List.mem_cons_self _ _)
    have ih := takeWhile_all xs ys (fun a ha => h a (List.mem_cons_of_mem _ ha))
    simp [List.takeWhile_cons, hx, ih]

theorem splitOnDot_noDot : ∀ l : List Char, '.' ∉ l → splitOnDot l = [l]
  | [], _ => rfl
  | c :: rest, h => by
    have hc : c ≠ '.' := by
      intro e
      subst e
      exact h (List.mem_cons_self _ _)
    have hr := splitOnDot_noDot rest (fun hm => h (List.mem_cons_of_mem _ hm))
    rw [splitOnDot_cons, if_neg hc, hr]

theorem splitOnDot_two_le :
    ∀ l : List Char, '.' ∈ l → 2 ≤ (splitOnDot l).length
  | [], h => absurd h (List.not_mem_nil _)
  | c :: rest, h => by
    rw [splitOnDot_cons]
    by_cases hc : c = '.'
    · rw [if_pos hc]
      have h1 : 0 < (splitOnDot rest).length :=
        List.length_pos.mpr (splitOnDot_ne_nil rest)
      simp only [List.length_cons]
      omega
    · have hmem : '.' ∈ rest := by
        cases List.mem_cons.mp h with
        | inl h1 => exact absurd h1.symm hc
        | inr h2 => exact h2
      have ih := splitOnDot_two_le rest hmem
      rw [if_neg hc]
      cases hr : splitOnDot rest with
      | nil => exact absurd hr (splitOnDot_ne_nil rest)
      | cons piece others =>
        rw [hr] at ih
        simp only [List.length_cons] at ih ⊢
        omega

theorem splitOnDot_headD :
    ∀ l : List Char, (splitOnDot l).headD [] = beforeFirstDot l
  | [] => rfl
  | c :: rest => by
    rw [splitOnDot_cons]
    by_cases hc : c = '.'
    · subst hc
      simp [beforeFirstDot, List.takeWhile_cons]
    · have ih := splitOnDot_headD rest
      cases hr : splitOnDot rest with
      | nil => exact absurd hr (splitOnDot_ne_nil rest)
      | cons piece others =>
        rw [hr] at ih
        rw [if_neg hc]
        simp only [List.headD_cons] at ih ⊢
        unfold beforeFirstDot at ih ⊢
        simp [List.takeWhile_cons, hc, ih]

theorem splitOnDot_getLastD :
    ∀ l : List Char, (splitOnDot l).getLastD [] = lastDotExtension l
  | [] => rfl
  | c :: rest => by
    have ih := splitOnDot_getLastD rest
    rw [splitOnDot_cons]
    by_cases hc : c = '.'
    · subst hc
      rw [if_pos rfl, List.getLastD_cons, ih]
      unfold lastDotExtension
      rw [List.reverse_cons]
      rw [show ['.'] = '.' :: ([] : List Char) from rfl]
      rw [takeWhile_sep (by simp) rest.reverse []]
    · rw [if_neg hc]
      cases hr : splitOnDot rest with
      | nil => exact absurd hr (splitOnDot_ne_nil rest)
      | cons piece others =>
        rw [hr] at ih
        cases others with
        | nil =>
          have hnd : '.' ∉ rest := by
            intro hm
            have h2 := splitOnDot_two_le rest hm
            rw [hr] at h2
            simp at h2
          have hpr : piece = rest := by
            have h3 := splitOnDot_noDot rest hnd
            rw [hr] at h3
            simpa using h3
          rw [List.getLastD_cons, List.getLastD_nil, hpr]
          unfold lastDotExtension
          rw [List.reverse_cons]
          rw [takeWhile_all rest.reverse [c] ?hall]
          case hall =>
            intro a ha
            have ham : a ∈ rest := List.mem_reverse.mp ha
            simp only [decide_eq_true_eq]
            intro e
            subst e
            exact hnd ham
          have hcp : [c].takeWhile (fun x => decide (x ≠ '.')) = [c] := by
            simp [List.takeWhile_cons, hc]
          rw [hcp, List.reverse_append, List.reverse_reverse]
          simp
        | cons o os =>
          have hmem : '.' ∈ rest := by
            by_contra hnm
            have h3 := splitOnDot_noDot rest hnm
            rw [hr] at h3
            simp at h3
          have hlast : ∀ d : List Char, ((o :: os) : List (List Char)).getLastD d =
              (o :: os).getLastD [] := by
            intro d
            rw [List.getLastD_eq_getLast?, List.getLastD_eq_getLast?]
            cases hgl : (o :: os).getLast? with
            | none =>
              exact absurd (List.getLast?_eq_none_iff.mp hgl) (by simp)
            | some y => rfl
          rw [List.getLastD_cons, hlast]
          rw [List.getLastD_cons] at ih
          rw [hlast] at ih
          rw [ih]
          unfold lastDotExtension
          rw [List.reverse_cons]
          obtain ⟨u, w, huw⟩ := List.append_of_mem (List.mem_reverse.mpr hmem)
          rw [huw, List.append_assoc, List.cons_append]
          rw [takeWhile_sep (by simp) u (w ++ [c])]
          rw [takeWhile_sep (by simp) u w]

/-- C7.  The replay sweep accepts a filename exactly when its last
dot-separated extension is gz and the portion of the filename before the
first dot has length exactly 36; in particular the standard compressed
recording name is accepted and the three spec counterexamples are
rejected. -/
theorem replay_filter_spec :
    (∀ filename : List Char,
      check_replay_is_need_upload filename = true ↔
        (lastDotExtension filename = ['g', 'z'] ∧
          (beforeFirstDot filename).length = 36)) ∧
    check_replay_is_need_upload
      "550e8400-e29b-41d4-a716-446655440000.tar.gz".toList = true ∧
    check_replay_is_need_upload "notes.txt".toList = false ∧
    check_replay_is_need_upload "short-id.log.gz".toList = false ∧
    check_replay_is_need_upload
      "550e8400-e29b-41d4-a716-446655440000.tar".toList = false := by
  refine ⟨?_, by decide, by decide, by decide, by decide⟩
  intro filename
  simp only [check_replay_is_need_upload, splitOnDot_getLastD,
    splitOnDot_headD]
  by_cases hs : lastDotExtension filename = ['g', 'z']
  · simp [hs]
  · simp [hs]

theorem closeConnections_all_ok :
    ∀ conns : List Connection,
      (∀ c ∈ conns, c.onClose = CloseOutcome.ok) →
      closeConnections conns = (conns.map Connection.id, none)
  | [], _ => rfl
  | c :: rest, h => by
    have hc := h c (List.mem_cons_self _ _)
    have ih := closeConnections_all_ok rest
      (fun d hd => h d (List.mem_cons_of_mem _ hd))
    simp [closeConnections, hc, ih]

theorem closeConnections_raises :
    ∀ (front : List Connection) (c : Connection) (rest : List Connection)
      (m : String),
      (∀ d ∈ front, d.onClose = CloseOutcome.ok) →
      c.onClose = CloseOutcome.raises m →
      closeConnections (front ++ c :: rest) =
        (front.map Connection.id ++ [c.id], some m)
  | [], c, rest, m, _, hc => by simp [closeConnections, hc]
  | d :: front, c, rest, m, h, hc => by
    have hd := h d (List.mem_cons_self _ _)
    have ih := closeConnections_raises front c rest m
      (fun x hx => h x (List.mem_cons_of_mem _ hx)) hc
    simp [closeConnections, hd, ih]

theorem heartbeat_frame (st : CocoState) (resp : TransportResult) :
    (heartbeat st resp).1 =
      { st with dispatchedTasks := st.dispatchedTasks ++
          (if truthy resp then tasksOf resp else []) } := by
  unfold heartbeat
  by_cases h : truthy resp = true
  · simp [h]
  · simp [h]

theorem shutdown_all_ok_locked (st : CocoState) (resp : TransportResult)
    (hl : st.lockHeld = true)
    (h : ∀ d ∈ st.connections, d.onClose = CloseOutcome.ok) :
    shutdown st resp =
      ({ st with
          dispatchedTasks := st.dispatchedTasks ++
            (if truthy resp then tasksOf resp else []),
          lockHeld := false
          stopEvtSet := true
          sshdStopped := true
          httpdStopped := true
          closeAttempts :=
            st.closeAttempts ++ st.connections.map Connection.id }, none) := by
  unfold shutdown
  rw [closeConnections_all_ok st.connections h]
  simp only [heartbeat_frame, hl]
  rfl

theorem shutdown_all_ok_unlocked (st : CocoState) (resp : TransportResult)
    (hl : st.lockHeld = false)
    (h : ∀ d ∈ st.connections, d.onClose = CloseOutcome.ok) :
    shutdown st resp =
      ({ st with
          dispatchedTasks := st.dispatchedTasks ++
            (if truthy resp then tasksOf resp else []),
          closeAttempts :=
            st.closeAttempts ++ st.connections.map Connection.id },
        some "release unlocked lock") := by
  unfold shutdown
  rw [closeConnections_all_ok st.connections h]
  simp only [heartbeat_frame, hl]
  rfl

/-- C3 counterexample: with two registered connections of which the first
raises on close, shutdown attempts only the first close, never reaches the
second connection, and aborts every remaining step (the stop event stays
unset, the lock stays held, the gateways keep running). -/
theorem shutdown_close_failure_cex :
    shutdown
      ⟨[], [⟨"c1", CloseOutcome.raises "boom"⟩, ⟨"c2", CloseOutcome.ok⟩],
        [], true, false, false, false, []⟩ (TransportResult.taskList []) =
      (⟨[], [⟨"c1", CloseOutcome.raises "boom"⟩, ⟨"c2", CloseOutcome.ok⟩],
        [], true, false, false, false, ["c1"]⟩, some "boom") ∧
    "c2" ∉ (shutdown
      ⟨[], [⟨"c1", CloseOutcome.raises "boom"⟩, ⟨"c2", CloseOutcome.ok⟩],
        [], true, false, false, false, []⟩
      (TransportResult.taskList [])).1.closeAttempts := by decide

/-- C3 (amended).  Shutdown closes the registered connections in order with
no per-connection error handling: the first close that raises ends the close
loop — the connections after it are never attempted — and aborts the
remaining shutdown steps, propagating the exception; only when every close
succeeds is a close attempted on all connections. -/
theorem shutdown_close_abort_amended :
    (∀ (st : CocoState) (resp : TransportResult) (front : List Connection)
        (c : Connection) (rest : List Connection) (m : String),
      st.connections = front ++ c :: rest →
      (∀ d ∈ front, d.onClose = CloseOutcome.ok) →
      c.onClose = CloseOutcome.raises m →
      shutdown st resp =
        ({ st with closeAttempts :=
            st.closeAttempts ++ (front.map Connection.id ++ [c.id]) },
          some m)) ∧
    (∀ (st : CocoState) (resp : TransportResult),
      (∀ d ∈ st.connections, d.onClose = CloseOutcome.ok) →
      (shutdown st resp).1.closeAttempts =
        st.closeAttempts ++ st.connections.map Connection.id) := by
  constructor
  · intro st resp front c rest m hconn hfront hc
    unfold shutdown
    rw [hconn, closeConnections_raises front c rest m hfront hc]
  · intro st resp h
    by_cases hl : st.lockHeld = true
    · rw [shutdown_all_ok_locked st resp hl h]
    · rw [shutdown_all_ok_unlocked st resp (by simpa using hl) h]

/-- C3 witness: three connections of which the middle one raises; shutdown
attempts the first two closes only and propagates the error. -/
theorem shutdown_close_abort_amended_witness :
    shutdown
      ⟨[], [⟨"a", CloseOutcome.ok⟩, ⟨"b", CloseOutcome.raises "x"⟩,
        ⟨"c", CloseOutcome.ok⟩], [], true, false, false, false, []⟩
      (TransportResult.taskList []) =
      (⟨[], [⟨"a", CloseOutcome.ok⟩, ⟨"b", CloseOutcome.raises "x"⟩,
        ⟨"c", CloseOutcome.ok⟩], [], true, false, false, false, ["a", "b"]⟩,
        some "x") := by
  have h := shutdown_close_abort_amended.1
    ⟨[], [⟨"a", CloseOutcome.ok⟩, ⟨"b", CloseOutcome.raises "x"⟩,
      ⟨"c", CloseOutcome.ok⟩], [], true, false, false, false, []⟩
    (TransportResult.taskList [])
    [⟨"a", CloseOutcome.ok⟩] ⟨"b", CloseOutcome.raises "x"⟩
    [⟨"c", CloseOutcome.ok⟩] "x" (by decide) (by decide) (by decide)
  rw [h]
  decide

/-- C5 counterexample: after one complete shutdown, invoking shutdown again
re-closes the still-registered connection (its close is attempted a second
time) and raises RuntimeError when releasing the already-released lock, so
the effect of two consecutive invocations differs from one. -/
theorem shutdown_twice_cex :
    (shutdown ⟨[], [⟨"c1", CloseOutcome.ok⟩], [], true, false, false, false,
      []⟩ (TransportResult.taskList [])).2 = none ∧
    (shutdown (shutdown ⟨[], [⟨"c1", CloseOutcome.ok⟩], [], true, false,
        false, false, []⟩ (TransportResult.taskList [])).1
      (TransportResult.taskList [])).2 = some "release unlocked lock" ∧
    (shutdown (shutdown ⟨[], [⟨"c1", CloseOutcome.ok⟩], [], true, false,
        false, false, []⟩ (TransportResult.taskList [])).1
      (TransportResult.taskList [])).1.closeAttempts = ["c1", "c1"] := by
  decide

/-- C5 (amended).  Shutdown is not idempotent: from a running state (lock
held, closes succeeding), the first invocation completes normally and leaves
the lock released, and a second consecutive invocation attempts to close
every still-registered connection again and then raises RuntimeError from
releasing the already-unlocked lock. -/
theorem shutdown_not_idempotent_amended (st : CocoState)
    (resp resp2 : TransportResult) (hl : st.lockHeld = true)
    (h : ∀ d ∈ st.connections, d.onClose = CloseOutcome.ok) :
    (shutdown st resp).2 = none ∧
    (shutdown st resp).1.lockHeld = false ∧
    (shutdown (shutdown st resp).1 resp2).2 =
      some "release unlocked lock" ∧
    (shutdown (shutdown st resp).1 resp2).1.closeAttempts =
      (shutdown st resp).1.closeAttempts ++
        st.connections.map Connection.id := by
  have h1 := shutdown_all_ok_locked st resp hl h
  have hl2 : (shutdown st resp).1.lockHeld = false := by rw [h1]
  have hc2 : ∀ d ∈ (shutdown st resp).1.connections,
      d.onClose = CloseOutcome.ok := by
    rw [h1]
    exact h
  have h2 := shutdown_all_ok_unlocked (shutdown st resp).1 resp2 hl2 hc2
  refine ⟨by rw [h1], hl2, by rw [h2], ?_⟩
  rw [h2, h1]

/-- C5 witness: the concrete two-invocation run on a single-connection
state. -/
theorem shutdown_not_idempotent_amended_witness :
    (shutdown (shutdown ⟨[], [⟨"k1", CloseOutcome.ok⟩], [], true, false,
        false, false, []⟩ (TransportResult.taskList [])).1
      (TransportResult.taskList [])).2 = some "release unlocked lock" := by
  exact (shutdown_not_idempotent_amended
    ⟨[], [⟨"k1", CloseOutcome.ok⟩], [], true, false, false, false, []⟩
    (TransportResult.taskList []) (TransportResult.taskList [])
    rfl (by decide)).2.2.1

theorem monitorFold_registry (now m : Nat) :
    ∀ (snap : List Session) (acc1 : List Session) (acc2 : List String),
      (snap.foldl (monitorStep now m) (acc1, acc2)).1 =
        acc1.filter (fun t =>
          !(snap.any (fun s => (s.closed_unexpected || s.closed) &&
            (t.id == s.id))))
  | [], acc1, acc2 => by simp
  | s :: snap, acc1, acc2 => by
    rw [List.foldl_cons]
    by_cases h1 : s.closed_unexpected = true
    · have hstep : monitorStep now m (acc1, acc2) s =
          (removeSession acc1 s.id, acc2) := by
        simp [monitorStep, h1]
      rw [hstep, monitorFold_registry now m snap _ acc2]
      unfold removeSession
      rw [List.filter_filter]
      apply List.filter_congr
      intro t ht
      simp only [List.any_cons, h1, Bool.true_or, Bool.true_and,
        Bool.not_or]
      by_cases he : t.id = s.id
      · simp [he]
      · simp [he, Bool.and_comm]
    · have h1f : s.closed_unexpected = false := by simpa using h1
      by_cases h2 : s.closed = true
      · have hstep : monitorStep now m (acc1, acc2) s =
            (removeSession acc1 s.id, acc2) := by
          simp [monitorStep, h1f, h2]
        rw [hstep, monitorFold_registry now m snap _ acc2]
        unfold removeSession
        rw [List.filter_filter]
        apply List.filter_congr
        intro t ht
        simp only [List.any_cons, h1f, h2, Bool.false_or, Bool.true_and,
          Bool.not_or]
        by_cases he : t.id = s.id
        · simp [he]
        · simp [he, Bool.and_comm]
      · have h2f : s.closed = false := by simpa using h2
        have hstep1 : (monitorStep now m (acc1, acc2) s).1 = acc1 := by
          by_cases hi : check_session_idle_too_long now m s = true <;>
            simp [monitorStep, h1f, h2f, hi]
        have hpair : monitorStep now m (acc1, acc2) s =
            (acc1, (monitorStep now m (acc1, acc2) s).2) := by
          exact Prod.ext hstep1 rfl
        rw [hpair, monitorFold_registry now m snap acc1 _]
        apply List.filter_congr
        intro t ht
        simp [List.any_cons, h1f, h2f]

theorem monitorFold_terminated (now m : Nat) :
    ∀ (snap : List Session) (acc1 : List Session) (acc2 : List String),
      (snap.foldl (monitorStep now m) (acc1, acc2)).2 =
        acc2 ++ (snap.filter (fun s => !s.closed_unexpected && !s.closed &&
          check_session_idle_too_long now m s)).map Session.id
  | [], acc1, acc2 => by simp
  | s :: snap, acc1, acc2 => by
    rw [List.foldl_cons]
    by_cases h1 : s.closed_unexpected = true
    · have hstep : monitorStep now m (acc1, acc2) s =
          (removeSession acc1 s.id, acc2) := by
        simp [monitorStep, h1]
      rw [hstep, monitorFold_terminated now m snap _ acc2]
      simp [List.filter_cons, h1]
    · have h1f : s.closed_unexpected = false := by simpa using h1
      by_cases h2 : s.closed = true
      · have hstep : monitorStep now m (acc1, acc2) s =
            (removeSession acc1 s.id, acc2) := by
          simp [monitorStep, h1f, h2]
        rw [hstep, monitorFold_terminated now m snap _ acc2]
        simp [List.filter_cons, h1f, h2]
      · have h2f : s.closed = false := by simpa using h2
        by_cases hi : check_session_idle_too_long now m s = true
        · have hstep : monitorStep now m (acc1, acc2) s =
              (acc1, acc2 ++ [s.id]) := by
            simp [monitorStep, h1f, h2f, hi]
          rw [hstep, monitorFold_terminated now m snap acc1 _]
          simp [List.filter_cons, h1f, h2f, hi]
        · have hif : check_session_idle_too_long now m s = false := by
            simpa using hi
          have hstep : monitorStep now m (acc1, acc2) s = (acc1, acc2) := by
            simp [monitorStep, h1f, h2f, hif]
          rw [hstep, monitorFold_terminated now m snap acc1 acc2]
          simp [List.filter_cons, h1f, h2f, hif]

/-- C8.  In one monitor iteration, over a registry snapshot with distinct
session identifiers: a session flagged as closed unexpectedly is removed
from the registry and gets no terminate call; a session flagged as normally
closed is removed from the registry; a session with neither flag set is
never removed in that iteration (the idle check may terminate it at
most). -/
theorem monitor_iteration_removal (now m : Nat) (reg : List Session)
    (s : Session) (hnd : (reg.map Session.id).Nodup) (hs : s ∈ reg) :
    (s.closed_unexpected = true →
      s.id ∉ (monitorIteration now m reg).1.map Session.id ∧
      s.id ∉ (monitorIteration now m reg).2) ∧
    (s.closed_unexpected = false → s.closed = true →
      s.id ∉ (monitorIteration now m reg).1.map Session.id) ∧
    (s.closed_unexpected = false → s.closed = false →
      s ∈ (monitorIteration now m reg).1) := by
  have hreg : (monitorIteration now m reg).1 =
      reg.filter (fun t =>
        !(reg.any (fun s2 => (s2.closed_unexpected || s2.closed) &&
          (t.id == s2.id)))) := monitorFold_registry now m reg reg []
  have hterm : (monitorIteration now m reg).2 =
      (reg.filter (fun s2 => !s2.closed_unexpected && !s2.closed &&
        check_session_idle_too_long now m s2)).map Session.id := by
    rw [show (monitorIteration now m reg).2 =
      [] ++ (reg.filter (fun s2 => !s2.closed_unexpected && !s2.closed &&
        check_session_idle_too_long now m s2)).map Session.id from
      monitorFold_terminated now m reg reg []]
    simp
  have hremoved : ∀ flag : Bool,
      ((s.closed_unexpected || s.closed) = true) →
      s.id ∉ (monitorIteration now m reg).1.map Session.id := by
    intro _ hf
    rw [hreg]
    intro hmem
    obtain ⟨t, ht, hid⟩ := List.mem_map.mp hmem
    obtain ⟨htr, hp⟩ := List.mem_filter.mp ht
    have hany : reg.any (fun s2 => (s2.closed_unexpected || s2.closed) &&
        (t.id == s2.id)) = true :=
      List.any_eq_true.mpr ⟨s, hs, by simp [hf, hid]⟩
    rw [hany] at hp
    simp at hp
  refine ⟨?_, ?_, ?_⟩
  · intro h1
    refine ⟨hremoved true (by simp [h1]), ?_⟩
    rw [hterm]
    intro hmem
    obtain ⟨t, ht, hid⟩ := List.mem_map.mp hmem
    obtain ⟨htr, hq⟩ := List.mem_filter.mp ht
    have hts : t = s := List.inj_on_of_nodup_map hnd htr hs hid
    rw [hts] at hq
    simp [h1] at hq
  · intro h1 h2
    exact hremoved true (by simp [h2])
  · intro h1 h2
    rw [hreg]
    refine List.mem_filter.mpr ⟨hs, ?_⟩
    simp only [Bool.not_eq_true']
    rw [List.any_eq_false]
    intro s2 hs2
    simp only [Bool.and_eq_true, not_and]
    intro hflag hbe
    have hid : s.id = s2.id := by simpa using hbe
    have hss : s2 = s := List.inj_on_of_nodup_map hnd hs2 hs hid.symm
    rw [hss] at hflag
    simp [h1, h2] at hflag

/-- C8 witness: with three registered sessions — one closed unexpectedly,
one closed normally, one open and idle — the first two are removed, the
open one stays registered. -/
theorem monitor_iteration_removal_witness :
    ("a" ∉ (monitorIteration 7200 60
      [⟨"a", 0, false, true⟩, ⟨"b", 0, true, false⟩,
        ⟨"c", 7200, false, false⟩]).1.map Session.id) ∧
    ("b" ∉ (monitorIteration 7200 60
      [⟨"a", 0, false, true⟩, ⟨"b", 0, true, false⟩,
        ⟨"c", 7200, false, false⟩]).1.map Session.id) ∧
    (⟨"c", 7200, false, false⟩ ∈ (monitorIteration 7200 60
      [⟨"a", 0, false, true⟩, ⟨"b", 0, true, false⟩,
        ⟨"c", 7200, false, false⟩]).1) := by
  have ha := monitor_iteration_removal 7200 60
    [⟨"a", 0, false, true⟩, ⟨"b", 0, true, false⟩,
      ⟨"c", 7200, false, false⟩] ⟨"a", 0, false, true⟩
    (by decide) (by decide)
  have hb := monitor_iteration_removal 7200 60
    [⟨"a", 0, false, true⟩, ⟨"b", 0, true, false⟩,
      ⟨"c", 7200, false, false⟩] ⟨"b", 0, true, false⟩
    (by decide) (by decide)
  have hc := monitor_iteration_removal 7200 60
    [⟨"a", 0, false, true⟩, ⟨"b", 0, true, false⟩,
      ⟨"c", 7200, false, false⟩] ⟨"c", 7200, false, false⟩
    (by decide) (by decide)
  exact ⟨(ha.1 rfl).1, hb.2.1 rfl rfl, hc.2.2 rfl rfl⟩

end Coco
